import Mathlib

/-!
Shallow embedding of the go-taskflow scheduler/executor core
(src/executor.go and src/graph.go of 981377660LMT/go-taskflow).

Modelling conventions:
* Nodes and graphs are identified by natural-number ids.  The immutable
  part of a vertex (`innerNode` fields name/Typ/successors/dependents/
  priority/g and the payload behaviour) lives in the `innerNode`
  structure below; the mutable runtime fields (`state`, `joinCounter`)
  live in the run state `St`, as functions from ids.
* Go `atomic.Int32` / the `utils.RC` counter are modelled as `Int`
  (values stay tiny in every claim; 32-bit overflow is irrelevant here).
* The user payloads are opaque to the scheduler; the embedding records
  only what the scheduler can observe of them: whether the call panics
  (`panics`), the integer a condition payload returns (`choice`), and
  the sub-graph id a subflow payload carries (`subgraph`).
* Concurrency is linearized: `pool.Go(f)` is modelled as running `f`
  inline at the dispatch point, and the `scheCond` condition variable as
  a ghost per-graph signal counter.  The claims settled on this model
  concern bookkeeping, ordering of enqueues and flag propagation, which
  are decided by the sequential data-flow of the source, not by the
  interleaving.
* Ghost fields (`signals`, `trace`, `builderCalls`, `diagPanics`)
  record observable events: condition-variable signals, the sequence of
  `state.Store` calls per node, how often a subflow builder ran, and how
  often the condition invoker's diagnostic panic fired.
-/

namespace gotaskflow

/-- Vertex kinds, from `nodeType` in src/graph.go. -/
inductive nodeType where
  | nodeStatic
  | nodeSubflow
  | nodeCondition
deriving DecidableEq, Repr

/-- kNodeStateIdle from src/graph.go. -/
def kNodeStateIdle : Int := 0

/-- kNodeStateWaiting from src/graph.go. -/
def kNodeStateWaiting : Int := 1

/-- kNodeStateRunning from src/graph.go. -/
def kNodeStateRunning : Int := 2

/-- kNodeStateFinished from src/graph.go. -/
def kNodeStateFinished : Int := 3

/-- kNodeStateFailed from src/graph.go (declared there, see claim C7). -/
def kNodeStateFailed : Int := 4

/-- Immutable part of `innerNode` (src/graph.go) plus the scheduler-visible
behaviour of the payload stored in `ptr`:
`panics` says whether the user function panics when called, `choice` is
the value a condition payload returns, `subgraph` is the id of the
`eGraph` a subflow payload (`Subflow.g`) owns. -/
structure innerNode where
  typ : nodeType
  successors : List Nat
  dependents : List Nat
  priority : Nat
  graph : Nat
  panics : Bool
  choice : Nat
  subgraph : Nat
deriving Repr

/-- Immutable part of `eGraph` (src/graph.go): the node list, in push order. -/
structure eGraph where
  nodes : List Nat
deriving Repr

/-- A whole taskflow world: the immutable node and graph tables. -/
structure Spec where
  node : Nat → innerNode
  graph : Nat → eGraph

/-- Mutable run state: the atomic fields of nodes/graphs, the executor work
queue and wait-group counter, plus ghost observation fields. -/
structure St where
  state : Nat → Int
  jc : Nat → Int
  gjc : Nat → Int
  entries : Nat → List Nat
  canceled : Nat → Bool
  instancelized : Nat → Bool
  wq : List Nat
  wg : Int
  signals : Nat → Nat
  trace : Nat → List Int
  builderCalls : Nat → Nat
  diagPanics : Nat

/-- Pointwise function update, used for all per-id mutable fields. -/
def fupd {α : Type} (f : Nat → α) (i : Nat) (v : α) : Nat → α :=
  fun j => if j = i then v else f j

@[simp] theorem fupd_same {α : Type} (f : Nat → α) (i : Nat) (v : α) :
    fupd f i v i = v := by simp [fupd]

theorem fupd_other {α : Type} (f : Nat → α) {i j : Nat} (v : α) (h : j ≠ i) :
    fupd f i v j = f j := by simp [fupd, h]

/-- node.state.Store(v): records the new state and appends it to the ghost
trace of state stores for that node. -/
def storeState (i : Nat) (v : Int) (s : St) : St :=
  { s with state := fupd s.state i v, trace := fupd s.trace i (s.trace i ++ [v]) }

/-- g.scheCond.Signal(): ghost-counted per graph. -/
def signalG (g : Nat) (s : St) : St :=
  { s with signals := fupd s.signals g (s.signals g + 1) }

/-- g.canceled.Store(true). -/
def cancelG (g : Nat) (s : St) : St :=
  { s with canceled := fupd s.canceled g true }

/-- innerNode.setup (src/graph.go): store Idle, then for every dependent
whose kind is not condition, increment the node's join-counter. -/
def innerNode.setup (sp : Spec) (i : Nat) (s : St) : St :=
  let s := storeState i kNodeStateIdle s
  let c := (sp.node i).dependents.foldl
    (fun t d => if (sp.node d).typ = nodeType.nodeCondition then t else t + 1)
    (s.jc i)
  { s with jc := fupd s.jc i c }

/-- innerNode.drop (src/graph.go): for every successor, decrement its
join-counter unless the dropping node is a condition vertex. -/
def innerNode.drop (sp : Spec) (i : Nat) (s : St) : St :=
  (sp.node i).successors.foldl
    (fun s n =>
      if (sp.node i).typ ≠ nodeType.nodeCondition then
        { s with jc := fupd s.jc n (s.jc n - 1) }
      else s)
    s

/-- eGraph.reset (src/graph.go): zero the graph join-counter, clear the
entry list, zero every member node's join-counter. -/
def eGraph.reset (sp : Spec) (g : Nat) (s : St) : St :=
  let s := { s with gjc := fupd s.gjc g 0, entries := fupd s.entries g [] }
  (sp.graph g).nodes.foldl (fun s n => { s with jc := fupd s.jc n 0 }) s

/-- One iteration of the loop body of eGraph.setup: run the node's setup,
and append it to the entry list when it has no dependents. -/
def setupStep (sp : Spec) (g : Nat) (s : St) (i : Nat) : St :=
  let s := innerNode.setup sp i s
  if (sp.node i).dependents = [] then
    { s with entries := fupd s.entries g (s.entries g ++ [i]) }
  else s

/-- eGraph.setup (src/graph.go): reset, then the per-node loop. -/
def eGraph.setup (sp : Spec) (g : Nat) (s : St) : St :=
  (sp.graph g).nodes.foldl (setupStep sp g) (eGraph.reset sp g s)

/-- slices.SortFunc with cmp.Compare on priority (src/executor.go lines
81-83 and 229-231): an ascending sort by priority value.  slices.SortFunc
is an unstable sort; `List.insertionSort` realizes one ascending ordering
(they agree except possibly on the relative order of equal priorities,
which no claim depends on). -/
def sortByPriority (sp : Spec) (l : List Nat) : List Nat :=
  List.insertionSort (fun a b => (sp.node a).priority ≤ (sp.node b).priority) l

/-- innerExecutorImpl.schedule (src/executor.go): for each node in order,
if the owning graph is canceled, signal and return (abandoning the rest of
the list); else increment the graph join-counter, add to the wait group,
put on the work queue, store Waiting, and signal. -/
def schedule (sp : Spec) : List Nat → St → St
  | [], s => s
  | i :: rest, s =>
    let g := (sp.node i).graph
    if s.canceled g then signalG g s
    else
      let s := { s with gjc := fupd s.gjc g (s.gjc g + 1) }
      let s := { s with wg := s.wg + 1 }
      let s := { s with wq := s.wq ++ [i] }
      let s := storeState i kNodeStateWaiting s
      schedule sp rest (signalG g s)

/-- The candidate list computed by sche_successors: successors whose
join-counter is zero or whose kind is condition. -/
def readyCandidates (sp : Spec) (i : Nat) (s : St) : List Nat :=
  (sp.node i).successors.filter
    (fun n => s.jc n = 0 ∨ (sp.node n).typ = nodeType.nodeCondition)

/-- innerExecutorImpl.sche_successors (src/executor.go): filter candidates,
sort them ascending by priority, re-setup the finished node, schedule. -/
def sche_successors (sp : Spec) (i : Nat) (s : St) : St :=
  schedule sp (sortByPriority sp (readyCandidates sp i s)) (innerNode.setup sp i s)

/-- invokeStatic (src/executor.go): store Running, run the payload (on
panic the deferred recover latches the owning graph's cancellation and the
Finished store is skipped), then the deferred bookkeeping: drop,
sche_successors, graph join-counter decrement, wait-group done, signal. -/
def invokeStatic (sp : Spec) (i : Nat) (s : St) : St :=
  let g := (sp.node i).graph
  let s := storeState i kNodeStateRunning s
  let s := if (sp.node i).panics then cancelG g s else storeState i kNodeStateFinished s
  let s := innerNode.drop sp i s
  let s := sche_successors sp i s
  let s := { s with gjc := fupd s.gjc g (s.gjc g - 1) }
  let s := { s with wg := s.wg - 1 }
  signalG g s

/-- invokeCondition (src/executor.go): store Running; run the payload; the
guard is literally `choice > len(p.mapper)` (note: not `>=`), and its
diagnostic panic is ghost-counted in `diagPanics`; otherwise store
Finished and schedule `p.mapper[choice]`.  The mapper is Modelled from the
spec: the builder layer (outside src/) gives the condition payload one
mapper entry per successor, mapping k to the k-th successor, so
`len(p.mapper)` is the successor count and `p.mapper[choice]` is
`successors[choice]` when `choice` is in range and the zero value `nil`
otherwise; `schedule(nil)` dereferences the nil node (`node.g`) and the
resulting runtime panic is recovered by the same deferred handler, so in
that case nothing is scheduled.  The deferred finalizer: latch
cancellation when panicked, drop (a no-op for condition vertices),
decrement the graph join-counter, re-setup the node, wait-group done,
signal. -/
def invokeCondition (sp : Spec) (i : Nat) (s : St) : St :=
  let n := sp.node i
  let g := n.graph
  let s := storeState i kNodeStateRunning s
  let r :=
    if n.panics then (s, true)
    else if n.choice > n.successors.length then
      ({ s with diagPanics := s.diagPanics + 1 }, true)
    else
      let s := storeState i kNodeStateFinished s
      match n.successors[n.choice]? with
      | some t => (schedule sp [t] s, false)
      | none => (s, true)
  let s := r.1
  let s := if r.2 then cancelG g s else s
  let s := innerNode.drop sp i s
  let s := { s with gjc := fupd s.gjc g (s.gjc g - 1) }
  let s := innerNode.setup sp i s
  let s := { s with wg := s.wg - 1 }
  signalG g s

/-- The remaining, mutually recursive part of the executor
(invokeGraph / invokeNode / invokeSubflow / scheduleGraph), defunctionalized
so that one fuel-indexed structurally recursive function covers the cycle
scheduleGraph → invokeGraph → invokeNode → invokeSubflow → scheduleGraph. -/
inductive Call where
  | invGraph (g : Nat)
  | invNode (i : Nat)
  | invSubflow (i : Nat)
  | schedGraph (g : Nat)

/-- The body of invokeSubflow before its deferred handler reaches the
recursive scheduleGraph call (src/executor.go lines 117-148): store
Running; when the sub-graph's instancelized latch is unset, run the
builder (ghost-counted in builderCalls; it panics when the payload says
so); when no panic occurred, set the latch and store Finished; when a
panic occurred, the deferred recover latches cancellation on both the
owning graph and the sub-graph. -/
def subflowBody (sp : Spec) (i : Nat) (s : St) : St :=
  let n := sp.node i
  let sub := n.subgraph
  let s := storeState i kNodeStateRunning s
  let builderRuns := !(s.instancelized sub)
  let s :=
    if builderRuns then
      { s with builderCalls := fupd s.builderCalls i (s.builderCalls i + 1) }
    else s
  let panicked := builderRuns && n.panics
  let s :=
    if panicked then s
    else { s with instancelized := fupd s.instancelized sub true }
  let s := if panicked then s else storeState i kNodeStateFinished s
  if panicked then cancelG sub (cancelG n.graph s) else s

/-- The tail of invokeSubflow's deferred handler, after the recursive
scheduleGraph call: drop, sche_successors, graph join-counter decrement,
wait-group done, signal (src/executor.go lines 134-138). -/
def subflowFinalize (sp : Spec) (i : Nat) (s : St) : St :=
  let g := (sp.node i).graph
  let s := innerNode.drop sp i s
  let s := sche_successors sp i s
  let s := { s with gjc := fupd s.gjc g (s.gjc g - 1) }
  let s := { s with wg := s.wg - 1 }
  signalG g s

/-- The entry-scheduling stage of scheduleGraph (src/executor.go lines
228-233): setup, sort the entries ascending by priority, schedule them. -/
def scheduleEntries (sp : Spec) (g : Nat) (s : St) : St :=
  schedule sp (sortByPriority sp ((eGraph.setup sp g s).entries g)) (eGraph.setup sp g s)

/-- Fuel-indexed interpreter for the recursive quartet; `none` means the
fuel ran out or the dispatcher would block forever (empty queue with
outstanding work, impossible in the linearized model of a live run).
Branch by branch this is a transliteration of src/executor.go:
`Call.invGraph` is invokeGraph's loop (exit when the graph join-counter is
zero or cancellation is latched, else take the queue head and dispatch);
`Call.invNode` is invokeNode's dispatch on the payload kind (`pool.Go` is
run inline); `Call.invSubflow` is invokeSubflow (the builder runs only
when the sub-graph's instancelized latch is false, the latch is set after
the builder returns, the deferred handler latches both graphs on panic and
then recursively schedules the sub-graph before the common bookkeeping);
`Call.schedGraph` is scheduleGraph (entry scheduling, the dispatcher loop,
then a final signal). -/
def exec : Nat → Spec → Call → St → Option St
  | 0, _, _, _ => none
  | Nat.succ fuel, sp, Call.invGraph g, s =>
    if s.gjc g = 0 ∨ s.canceled g = true then some s
    else
      match s.wq with
      | [] => none
      | i :: rest =>
        match exec fuel sp (Call.invNode i) { s with wq := rest } with
        | none => none
        | some s2 => exec fuel sp (Call.invGraph g) s2
  | Nat.succ fuel, sp, Call.invNode i, s =>
    match (sp.node i).typ with
    | nodeType.nodeStatic => some (invokeStatic sp i s)
    | nodeType.nodeCondition => some (invokeCondition sp i s)
    | nodeType.nodeSubflow => exec fuel sp (Call.invSubflow i) s
  | Nat.succ fuel, sp, Call.invSubflow i, s =>
    match exec fuel sp (Call.schedGraph (sp.node i).subgraph) (subflowBody sp i s) with
    | none => none
    | some s => some (subflowFinalize sp i s)
  | Nat.succ fuel, sp, Call.schedGraph g, s =>
    let s := scheduleEntries sp g s
    match exec fuel sp (Call.invGraph g) s with
    | none => none
    | some s => some (signalG g s)

/-- invokeGraph (src/executor.go): the dispatcher loop of one graph. -/
def invokeGraph (fuel : Nat) (sp : Spec) (g : Nat) (s : St) : Option St :=
  exec fuel sp (Call.invGraph g) s

/-- invokeNode (src/executor.go): dispatch one vertex to its invoker. -/
def invokeNode (fuel : Nat) (sp : Spec) (i : Nat) (s : St) : Option St :=
  exec fuel sp (Call.invNode i) s

/-- invokeSubflow (src/executor.go). -/
def invokeSubflow (fuel : Nat) (sp : Spec) (i : Nat) (s : St) : Option St :=
  exec fuel sp (Call.invSubflow i) s

/-- scheduleGraph (src/executor.go). -/
def scheduleGraph (fuel : Nat) (sp : Spec) (g : Nat) (s : St) : Option St :=
  exec fuel sp (Call.schedGraph g) s

/-- innerExecutorImpl.Run (src/executor.go lines 46-49): Run(tf) is exactly
`e.scheduleGraph(tf.graph, nil)` followed by `return e`, on the caller's
goroutine. -/
def Run (fuel : Nat) (sp : Spec) (g : Nat) (s : St) : Option St :=
  scheduleGraph fuel sp g s

/-! Concrete fixtures used by counterexamples and witnesses. -/

/-- A default static node: no edges, priority 0, graph 0, does not panic. -/
def dnode : innerNode := ⟨nodeType.nodeStatic, [], [], 0, 0, false, 0, 0⟩

/-- The pristine run state: everything zeroed / empty / unlatched. -/
def st0 : St := ⟨fun _ => 0, fun _ => 0, fun _ => 0, fun _ => [], fun _ => false,
  fun _ => false, [], 0, fun _ => 0, fun _ => [], fun _ => 0, 0⟩

/-- Projection: the graph join-counter of graph `g` under an optional state. -/
def stGjc (g : Nat) (o : Option St) : Option Int := o.map fun s => s.gjc g

/-- Projection: the ghost state-store trace of node `i`. -/
def stTrace (i : Nat) (o : Option St) : Option (List Int) := o.map fun s => s.trace i

/-- Projection: the cancellation flag of graph `g`. -/
def stCanceled (g : Nat) (o : Option St) : Option Bool := o.map fun s => s.canceled g

/-- Projection: the instancelized latch of graph `g`. -/
def stInstancelized (g : Nat) (o : Option St) : Option Bool := o.map fun s => s.instancelized g

/-- Projection: the ghost builder-invocation count of node `i`. -/
def stBuilderCalls (i : Nat) (o : Option St) : Option Nat := o.map fun s => s.builderCalls i

/-- Projection: the work queue. -/
def stWq (o : Option St) : Option (List Nat) := o.map St.wq

/-- One taskflow with a single non-panicking static node 0 on graph 0. -/
def oneTaskSpec : Spec :=
  { node := fun _ => dnode
    graph := fun _ => ⟨[0]⟩ }

/-- A subflow scenario: node 0 (graph 0) is a subflow vertex owning
sub-graph 1; node 1 (graph 1) is a static vertex whose payload panics. -/
def subPanicSpec : Spec :=
  { node := fun i =>
      if i = 0 then ⟨nodeType.nodeSubflow, [], [], 0, 0, false, 0, 1⟩
      else ⟨nodeType.nodeStatic, [], [], 0, 1, true, 0, 0⟩
    graph := fun g => if g = 0 then ⟨[0]⟩ else ⟨[1]⟩ }

/-- A condition vertex 0 with two successors whose payload returns 2,
i.e. `choice = len(successors)`. -/
def condChoiceEqLen : Spec :=
  { node := fun i =>
      if i = 0 then ⟨nodeType.nodeCondition, [1, 2], [], 0, 0, false, 2, 0⟩
      else dnode
    graph := fun _ => ⟨[0, 1, 2]⟩ }

/-- The same condition vertex but with the payload returning 3, i.e.
`choice > len(successors)`. -/
def condChoiceGtLen : Spec :=
  { node := fun i =>
      if i = 0 then ⟨nodeType.nodeCondition, [1, 2], [], 0, 0, false, 3, 0⟩
      else dnode
    graph := fun _ => ⟨[0, 1, 2]⟩ }

/-- A single static node whose payload panics. -/
def panicSpec : Spec :=
  { node := fun _ => ⟨nodeType.nodeStatic, [], [], 0, 0, true, 0, 0⟩
    graph := fun _ => ⟨[0]⟩ }

/-- st0 with the cancellation flag of every graph latched. -/
def stCan : St := { st0 with canceled := fun _ => true }

/-! Generic preservation lemmas. -/

/-- A projection that every step of a fold preserves is preserved by the
whole fold. -/
theorem foldl_pres {β γ : Type} (f : St → β → St) (proj : St → γ)
    (h : ∀ s b, proj (f s b) = proj s) :
    ∀ (l : List β) (s : St), proj (l.foldl f s) = proj s := by
  intro l
  induction l with
  | nil => intro s; rfl
  | cons b l ih => intro s; rw [List.foldl_cons, ih, h]

/-- A fold whose step is the identity is the identity. -/
theorem foldl_id {β : Type} (f : St → β → St) (h : ∀ s b, f s b = s) :
    ∀ (l : List β) (s : St), l.foldl f s = s := by
  intro l
  induction l with
  | nil => intro s; rfl
  | cons b l ih => intro s; rw [List.foldl_cons, h, ih]

/-- schedule never touches a cancellation flag. -/
theorem schedule_canceled (sp : Spec) (ns : List Nat) (s : St) :
    (schedule sp ns s).canceled = s.canceled := by
  induction ns generalizing s with
  | nil => rfl
  | cons i rest ih =>
    simp only [schedule]
    split
    · rfl
    · rw [ih]
      rfl

/-- schedule never touches an instancelized latch. -/
theorem schedule_instancelized (sp : Spec) (ns : List Nat) (s : St) :
    (schedule sp ns s).instancelized = s.instancelized := by
  induction ns generalizing s with
  | nil => rfl
  | cons i rest ih =>
    simp only [schedule]
    split
    · rfl
    · rw [ih]
      rfl

/-- schedule never touches the ghost builder-call counters. -/
theorem schedule_builderCalls (sp : Spec) (ns : List Nat) (s : St) :
    (schedule sp ns s).builderCalls = s.builderCalls := by
  induction ns generalizing s with
  | nil => rfl
  | cons i rest ih =>
    simp only [schedule]
    split
    · rfl
    · rw [ih]
      rfl

/-- schedule never touches a vertex join-counter. -/
theorem schedule_jc (sp : Spec) (ns : List Nat) (s : St) :
    (schedule sp ns s).jc = s.jc := by
  induction ns generalizing s with
  | nil => rfl
  | cons i rest ih =>
    simp only [schedule]
    split
    · rfl
    · rw [ih]
      rfl

/-- schedule leaves the state of a node outside the scheduled list alone. -/
theorem schedule_state_notMem (sp : Spec) (ns : List Nat) (s : St) (j : Nat)
    (h : j ∉ ns) :
    (schedule sp ns s).state j = s.state j := by
  induction ns generalizing s with
  | nil => rfl
  | cons i rest ih =>
    simp only [schedule]
    split
    · rfl
    · rw [ih _ (fun hm => h (List.mem_cons_of_mem i hm))]
      simp [storeState, signalG, fupd]
      intro hji
      exact absurd (hji ▸ List.mem_cons_self i rest) h

/-- schedule leaves the ghost trace of a node outside the scheduled list
alone. -/
theorem schedule_trace_notMem (sp : Spec) (ns : List Nat) (s : St) (j : Nat)
    (h : j ∉ ns) :
    (schedule sp ns s).trace j = s.trace j := by
  induction ns generalizing s with
  | nil => rfl
  | cons i rest ih =>
    simp only [schedule]
    split
    · rfl
    · rw [ih _ (fun hm => h (List.mem_cons_of_mem i hm))]
      simp [storeState, signalG, fupd]
      intro hji
      exact absurd (hji ▸ List.mem_cons_self i rest) h

/-- When no scheduled node's graph is canceled, schedule appends exactly
the given list, in order, to the work queue. -/
theorem schedule_wq (sp : Spec) (ns : List Nat) (s : St)
    (h : ∀ j ∈ ns, s.canceled ((sp.node j).graph) = false) :
    (schedule sp ns s).wq = s.wq ++ ns := by
  induction ns generalizing s with
  | nil => simp [schedule]
  | cons i rest ih =>
    simp only [schedule]
    rw [if_neg]
    · rw [ih]
      · simp [storeState, signalG]
      · intro j hj
        have := h j (List.mem_cons_of_mem i hj)
        simpa [storeState, signalG] using this
    · have := h i (List.mem_cons_self i rest)
      simp [this]

/-- The comparator used by both sorts in src/executor.go. -/
def prioLe (sp : Spec) (a b : Nat) : Prop :=
  (sp.node a).priority ≤ (sp.node b).priority

instance (sp : Spec) : DecidableRel (prioLe sp) :=
  fun a b => inferInstanceAs (Decidable ((sp.node a).priority ≤ (sp.node b).priority))

/-- sortByPriority always yields a list that is ascending by priority. -/
theorem sortByPriority_sorted (sp : Spec) (l : List Nat) :
    List.Sorted (prioLe sp) (sortByPriority sp l) := by
  letI : IsTotal Nat (prioLe sp) := ⟨fun a b => Nat.le_total _ _⟩
  letI : IsTrans Nat (prioLe sp) := ⟨fun a b c => Nat.le_trans⟩
  exact List.sorted_insertionSort (prioLe sp) l

/-- setupStep never touches the cancellation flags. -/
theorem setupStep_canceled (sp : Spec) (g : Nat) (s : St) (b : Nat) :
    (setupStep sp g s b).canceled = s.canceled := by
  by_cases hd : (sp.node b).dependents = [] <;>
    simp [setupStep, hd, innerNode.setup, storeState]

/-- setupStep never touches the work queue. -/
theorem setupStep_wq (sp : Spec) (g : Nat) (s : St) (b : Nat) :
    (setupStep sp g s b).wq = s.wq := by
  by_cases hd : (sp.node b).dependents = [] <;>
    simp [setupStep, hd, innerNode.setup, storeState]

/-- setupStep never touches the instancelized latches. -/
theorem setupStep_instancelized (sp : Spec) (g : Nat) (s : St) (b : Nat) :
    (setupStep sp g s b).instancelized = s.instancelized := by
  by_cases hd : (sp.node b).dependents = [] <;>
    simp [setupStep, hd, innerNode.setup, storeState]

/-- setupStep never touches the ghost builder-call counters. -/
theorem setupStep_builderCalls (sp : Spec) (g : Nat) (s : St) (b : Nat) :
    (setupStep sp g s b).builderCalls = s.builderCalls := by
  by_cases hd : (sp.node b).dependents = [] <;>
    simp [setupStep, hd, innerNode.setup, storeState]

/-- setupStep never touches the graph join-counters. -/
theorem setupStep_gjc (sp : Spec) (g : Nat) (s : St) (b : Nat) :
    (setupStep sp g s b).gjc = s.gjc := by
  by_cases hd : (sp.node b).dependents = [] <;>
    simp [setupStep, hd, innerNode.setup, storeState]

/-- eGraph.setup never touches the cancellation flags: the reset loop only
clears counters and the entry list, and the per-node loop only stores
node state, recomputes node join-counters and appends entries. -/
theorem setup_canceled (sp : Spec) (g : Nat) (s : St) :
    (eGraph.setup sp g s).canceled = s.canceled := by
  unfold eGraph.setup
  rw [foldl_pres _ St.canceled (setupStep_canceled sp g)]
  exact foldl_pres (fun s n => { s with jc := fupd s.jc n 0 }) St.canceled
    (fun _ _ => rfl) (sp.graph g).nodes _

/-- eGraph.setup never touches the work queue. -/
theorem setup_wq (sp : Spec) (g : Nat) (s : St) :
    (eGraph.setup sp g s).wq = s.wq := by
  unfold eGraph.setup
  rw [foldl_pres _ St.wq (setupStep_wq sp g)]
  exact foldl_pres (fun s n => { s with jc := fupd s.jc n 0 }) St.wq
    (fun _ _ => rfl) (sp.graph g).nodes _

/-- eGraph.setup never touches the instancelized latches. -/
theorem setup_instancelized (sp : Spec) (g : Nat) (s : St) :
    (eGraph.setup sp g s).instancelized = s.instancelized := by
  unfold eGraph.setup
  rw [foldl_pres _ St.instancelized (setupStep_instancelized sp g)]
  exact foldl_pres (fun s n => { s with jc := fupd s.jc n 0 }) St.instancelized
    (fun _ _ => rfl) (sp.graph g).nodes _

/-- eGraph.setup never touches the ghost builder-call counters. -/
theorem setup_builderCalls (sp : Spec) (g : Nat) (s : St) :
    (eGraph.setup sp g s).builderCalls = s.builderCalls := by
  unfold eGraph.setup
  rw [foldl_pres _ St.builderCalls (setupStep_builderCalls sp g)]
  exact foldl_pres (fun s n => { s with jc := fupd s.jc n 0 }) St.builderCalls
    (fun _ _ => rfl) (sp.graph g).nodes _

/-- C9: schedule on a vertex whose owning graph has its cancellation flag
latched is a no-op apart from signalling: the work queue, the graph
join-counters, the executor wait counter, every vertex state and every
vertex join-counter are unchanged, and the owning graph's scheduling
condition receives exactly one signal. -/
theorem schedule_on_canceled_graph_noop (sp : Spec) (i : Nat) (s : St)
    (h : s.canceled ((sp.node i).graph) = true) :
    (schedule sp [i] s).wq = s.wq ∧
    (schedule sp [i] s).gjc = s.gjc ∧
    (schedule sp [i] s).wg = s.wg ∧
    (schedule sp [i] s).state = s.state ∧
    (schedule sp [i] s).jc = s.jc ∧
    (schedule sp [i] s).signals ((sp.node i).graph) =
      s.signals ((sp.node i).graph) + 1 := by
  simp [schedule, h, signalG]

/-- Witness for schedule_on_canceled_graph_noop at a concrete canceled
graph. -/
theorem schedule_on_canceled_graph_noop_witness :
    stCan.canceled ((oneTaskSpec.node 0).graph) = true ∧
    ((schedule oneTaskSpec [0] stCan).wq = stCan.wq ∧
     (schedule oneTaskSpec [0] stCan).gjc = stCan.gjc ∧
     (schedule oneTaskSpec [0] stCan).wg = stCan.wg ∧
     (schedule oneTaskSpec [0] stCan).state = stCan.state ∧
     (schedule oneTaskSpec [0] stCan).jc = stCan.jc ∧
     (schedule oneTaskSpec [0] stCan).signals ((oneTaskSpec.node 0).graph) =
       stCan.signals ((oneTaskSpec.node 0).graph) + 1) :=
  ⟨rfl, schedule_on_canceled_graph_noop oneTaskSpec 0 stCan rfl⟩

/-- C3 counterexample: on a graph whose cancellation flag was latched,
eGraph.setup (src/graph.go lines 33-39 and 48-58) does not reset the flag
to false — reset only clears counters and entries, and nothing in the
setup path stores the atomic `canceled`; the claim that a subsequent run
starts un-cancelled is therefore false. -/
theorem setup_does_not_clear_canceled :
    ¬((eGraph.setup oneTaskSpec 0 stCan).canceled 0 = false) := by decide

/-- C3 amended: eGraph.setup leaves every graph's cancellation flag exactly
as it was (the field comment in src/graph.go says the flag only changes
when a task in the graph panics), so a graph whose flag was latched during
a run starts its next run still cancelled. -/
theorem setup_leaves_canceled_unchanged (sp : Spec) (g : Nat) (s : St) :
    (eGraph.setup sp g s).canceled = s.canceled :=
  setup_canceled sp g s

/-- C1: the condition invoker's bound check (src/executor.go line 176) is
`choice > len(p.mapper)`, not `choice >= len(successors)`.  At the failing
input — a condition vertex with two successors whose payload returns 2 —
the claim (and the invoker's own diagnostic message, which demands that
the successors outnumber the choice) requires the diagnostic panic, but
the guard passes, `p.mapper[2]` yields the zero value nil, and
`schedule(nil)` crashes with a nil-pointer dereference that the deferred
recover converts into plain cancellation: no diagnostic panic fires
(diagPanics stays 0), no successor is scheduled, and the graph is
canceled.  For choice 3 (strictly greater than the successor count) the
diagnostic does fire. -/
theorem condition_guard_off_by_one :
    (condChoiceEqLen.node 0).choice = (condChoiceEqLen.node 0).successors.length ∧
    (invokeCondition condChoiceEqLen 0 st0).diagPanics = 0 ∧
    (invokeCondition condChoiceEqLen 0 st0).wq = [] ∧
    (invokeCondition condChoiceEqLen 0 st0).canceled 0 = true ∧
    (invokeCondition condChoiceGtLen 0 st0).diagPanics = 1 := by decide

/-- C7 counterexample: a panicking static vertex does not end in the
failed state.  In src/executor.go invokeStatic the only state stores are
Running and (skipped on panic) Finished, and the deferred bookkeeping
calls sche_successors, whose node.setup stores Idle again; the constant
kNodeStateFailed is never stored anywhere in the executor.  At the
concrete input the vertex's state-store history is [Running, Idle] and its
final state is Idle, not Failed. -/
theorem panicking_static_not_failed :
    (invokeStatic panicSpec 0 st0).trace 0 = [kNodeStateRunning, kNodeStateIdle] ∧
    (invokeStatic panicSpec 0 st0).state 0 = kNodeStateIdle ∧
    ¬((invokeStatic panicSpec 0 st0).state 0 = kNodeStateFailed) := by decide

/-- The number of dependents (predecessors) of node `i` whose kind is not
condition. -/
def nonCondDeps (sp : Spec) (i : Nat) : Nat :=
  ((sp.node i).dependents.filter fun d => decide (¬(sp.node d).typ = nodeType.nodeCondition)).length

/-- The increment loop in innerNode.setup adds exactly the number of
non-condition dependents. -/
theorem depsFold_eq (sp : Spec) (L : List Nat) (a : Int) :
    L.foldl (fun t d => if (sp.node d).typ = nodeType.nodeCondition then t else t + 1) a
      = a + ((L.filter fun d => decide (¬(sp.node d).typ = nodeType.nodeCondition)).length : Int) := by
  induction L generalizing a with
  | nil => simp
  | cons d L ih =>
    rw [List.foldl_cons]
    by_cases hd : (sp.node d).typ = nodeType.nodeCondition
    · simp only [hd, if_true]
      rw [ih]
      simp [hd]
    · simp only [hd, if_false]
      rw [ih]
      simp only [List.filter_cons, hd]
      simp
      ring

/-- The join-counter-zeroing loop of eGraph.reset. -/
theorem zeroFold_jc (L : List Nat) (s : St) (j : Nat) :
    (L.foldl (fun s n => { s with jc := fupd s.jc n 0 }) s).jc j
      = if j ∈ L then 0 else s.jc j := by
  induction L generalizing s with
  | nil => simp
  | cons n L ih =>
    rw [List.foldl_cons, ih]
    by_cases hjL : j ∈ L
    · simp [hjL, List.mem_cons]
    · by_cases hjn : j = n
      · simp [hjL, hjn, List.mem_cons, fupd]
      · simp [hjL, hjn, List.mem_cons, fupd]

/-- eGraph.reset zeroes the join-counter of every member node and leaves
the others alone. -/
theorem reset_jc (sp : Spec) (g : Nat) (s : St) (j : Nat) :
    (eGraph.reset sp g s).jc j = if j ∈ (sp.graph g).nodes then 0 else s.jc j := by
  unfold eGraph.reset
  rw [zeroFold_jc]

/-- eGraph.reset clears the entry list of the graph. -/
theorem reset_entries (sp : Spec) (g : Nat) (s : St) :
    (eGraph.reset sp g s).entries g = [] := by
  unfold eGraph.reset
  rw [foldl_pres (fun s n => { s with jc := fupd s.jc n 0 }) St.entries
    (fun _ _ => rfl)]
  simp

/-- eGraph.reset zeroes the graph join-counter. -/
theorem reset_gjc (sp : Spec) (g : Nat) (s : St) :
    (eGraph.reset sp g s).gjc g = 0 := by
  unfold eGraph.reset
  rw [foldl_pres (fun s n => { s with jc := fupd s.jc n 0 }) St.gjc
    (fun _ _ => rfl)]
  simp

/-- setupStep appends node `i` to the entry list exactly when it has no
dependents. -/
theorem setupStep_entries (sp : Spec) (g : Nat) (s : St) (i : Nat) :
    (setupStep sp g s i).entries g
      = s.entries g ++ (if (sp.node i).dependents = [] then [i] else []) := by
  by_cases hd : (sp.node i).dependents = [] <;>
    simp [setupStep, hd, innerNode.setup, storeState]

/-- setupStep stores Idle on its node and nothing else. -/
theorem setupStep_state (sp : Spec) (g : Nat) (s : St) (i j : Nat) :
    (setupStep sp g s i).state j = if j = i then kNodeStateIdle else s.state j := by
  by_cases hd : (sp.node i).dependents = [] <;> by_cases hj : j = i <;>
    simp [setupStep, hd, hj, innerNode.setup, storeState, fupd]

/-- setupStep adds the non-condition dependent count to its node's
join-counter and touches no other join-counter. -/
theorem setupStep_jc (sp : Spec) (g : Nat) (s : St) (i j : Nat) :
    (setupStep sp g s i).jc j
      = if j = i then s.jc i + (nonCondDeps sp i : Int) else s.jc j := by
  by_cases hd : (sp.node i).dependents = [] <;> by_cases hj : j = i <;>
    simp [setupStep, hd, hj, innerNode.setup, storeState, fupd, depsFold_eq,
      nonCondDeps]

/-- The per-node loop of eGraph.setup appends exactly the dependent-free
nodes, in list order, to the entry list. -/
theorem setupFold_entries (sp : Spec) (g : Nat) (L : List Nat) (s : St) :
    ((L.foldl (setupStep sp g) s).entries g)
      = s.entries g ++ L.filter (fun i => decide ((sp.node i).dependents = [])) := by
  induction L generalizing s with
  | nil => simp
  | cons i L ih =>
    rw [List.foldl_cons, ih, setupStep_entries]
    by_cases hd : (sp.node i).dependents = [] <;> simp [hd]

/-- The per-node loop of eGraph.setup leaves the state of nodes outside
the list alone. -/
theorem setupFold_state_notMem (sp : Spec) (g : Nat) (L : List Nat) (s : St)
    (j : Nat) (h : j ∉ L) :
    (L.foldl (setupStep sp g) s).state j = s.state j := by
  induction L generalizing s with
  | nil => rfl
  | cons i L ih =>
    rw [List.foldl_cons, ih _ (fun hm => h (List.mem_cons_of_mem i hm)),
      setupStep_state]
    simp only [List.mem_cons, not_or] at h
    simp [h.1]

/-- The per-node loop of eGraph.setup leaves the join-counter of nodes
outside the list alone. -/
theorem setupFold_jc_notMem (sp : Spec) (g : Nat) (L : List Nat) (s : St)
    (j : Nat) (h : j ∉ L) :
    (L.foldl (setupStep sp g) s).jc j = s.jc j := by
  induction L generalizing s with
  | nil => rfl
  | cons i L ih =>
    rw [List.foldl_cons, ih _ (fun hm => h (List.mem_cons_of_mem i hm)),
      setupStep_jc]
    simp only [List.mem_cons, not_or] at h
    simp [h.1]

/-- On a duplicate-free node list, the per-node loop leaves every listed
node's state Idle. -/
theorem setupFold_state_mem (sp : Spec) (g : Nat) (L : List Nat) (s : St)
    (j : Nat) (h : j ∈ L) (hnd : L.Nodup) :
    (L.foldl (setupStep sp g) s).state j = kNodeStateIdle := by
  induction L generalizing s with
  | nil => cases h
  | cons i L ih =>
    rw [List.foldl_cons]
    rcases List.mem_cons.mp h with hji | hjL
    · have hiL : i ∉ L := (List.nodup_cons.mp hnd).1
      rw [setupFold_state_notMem sp g L _ j (hji ▸ hiL), setupStep_state]
      simp [hji]
    · exact ih _ hjL (List.nodup_cons.mp hnd).2

/-- On a duplicate-free node list, the per-node loop adds each listed
node's non-condition dependent count to its join-counter. -/
theorem setupFold_jc_mem (sp : Spec) (g : Nat) (L : List Nat) (s : St)
    (j : Nat) (h : j ∈ L) (hnd : L.Nodup) :
    (L.foldl (setupStep sp g) s).jc j = s.jc j + (nonCondDeps sp j : Int) := by
  induction L generalizing s with
  | nil => cases h
  | cons i L ih =>
    rw [List.foldl_cons]
    rcases List.mem_cons.mp h with hji | hjL
    · have hiL : i ∉ L := (List.nodup_cons.mp hnd).1
      rw [setupFold_jc_notMem sp g L _ j (hji ▸ hiL), setupStep_jc]
      simp [hji]
    · rw [ih (setupStep sp g s i) hjL (List.nodup_cons.mp hnd).2, setupStep_jc]
      have hji : ¬(j = i) := by
        rintro rfl
        exact (List.nodup_cons.mp hnd).1 hjL
      simp [hji]

/-- eGraph.setup leaves the graph join-counter at zero. -/
theorem setup_gjc (sp : Spec) (g : Nat) (s : St) :
    (eGraph.setup sp g s).gjc g = 0 := by
  unfold eGraph.setup
  rw [show ((sp.graph g).nodes.foldl (setupStep sp g) (eGraph.reset sp g s)).gjc
      = (eGraph.reset sp g s).gjc from
    foldl_pres _ St.gjc (setupStep_gjc sp g) _ _]
  exact reset_gjc sp g s

/-- C5: after eGraph.setup on a graph with a duplicate-free node list, the
graph join-counter is zero, the entry list is exactly the member nodes
with an empty dependent list (in list order), every member node's state is
Idle, and every member node's join-counter equals the number of its
dependents whose kind is not condition. -/
theorem setup_postcondition (sp : Spec) (g : Nat) (s : St)
    (hnd : (sp.graph g).nodes.Nodup) :
    (eGraph.setup sp g s).gjc g = 0 ∧
    (eGraph.setup sp g s).entries g
      = (sp.graph g).nodes.filter (fun i => decide ((sp.node i).dependents = [])) ∧
    (∀ i ∈ (sp.graph g).nodes, (eGraph.setup sp g s).state i = kNodeStateIdle) ∧
    (∀ i ∈ (sp.graph g).nodes, (eGraph.setup sp g s).jc i = (nonCondDeps sp i : Int)) := by
  refine ⟨setup_gjc sp g s, ?_, ?_, ?_⟩
  · unfold eGraph.setup
    rw [setupFold_entries, reset_entries]
    simp
  · intro i hi
    unfold eGraph.setup
    exact setupFold_state_mem sp g _ _ i hi hnd
  · intro i hi
    unfold eGraph.setup
    rw [setupFold_jc_mem sp g _ _ i hi hnd, reset_jc]
    simp [hi]

/-- Witness for setup_postcondition on the one-node fixture, with the
per-node conclusions instantiated at node 0. -/
theorem setup_postcondition_witness :
    (oneTaskSpec.graph 0).nodes.Nodup ∧
    (eGraph.setup oneTaskSpec 0 st0).gjc 0 = 0 ∧
    (eGraph.setup oneTaskSpec 0 st0).entries 0
      = (oneTaskSpec.graph 0).nodes.filter
          (fun i => decide ((oneTaskSpec.node i).dependents = [])) ∧
    (eGraph.setup oneTaskSpec 0 st0).state 0 = kNodeStateIdle ∧
    (eGraph.setup oneTaskSpec 0 st0).jc 0 = (nonCondDeps oneTaskSpec 0 : Int) :=
  ⟨by decide,
   (setup_postcondition oneTaskSpec 0 st0 (by decide)).1,
   (setup_postcondition oneTaskSpec 0 st0 (by decide)).2.1,
   (setup_postcondition oneTaskSpec 0 st0 (by decide)).2.2.1 0 (by decide),
   (setup_postcondition oneTaskSpec 0 st0 (by decide)).2.2.2 0 (by decide)⟩

/-! Projection facts for the elementary state operations. -/

@[simp] theorem storeState_canceled (i : Nat) (v : Int) (s : St) :
    (storeState i v s).canceled = s.canceled := rfl

@[simp] theorem storeState_instancelized (i : Nat) (v : Int) (s : St) :
    (storeState i v s).instancelized = s.instancelized := rfl

@[simp] theorem storeState_builderCalls (i : Nat) (v : Int) (s : St) :
    (storeState i v s).builderCalls = s.builderCalls := rfl

@[simp] theorem storeState_wq (i : Nat) (v : Int) (s : St) :
    (storeState i v s).wq = s.wq := rfl

@[simp] theorem storeState_jc (i : Nat) (v : Int) (s : St) :
    (storeState i v s).jc = s.jc := rfl

@[simp] theorem signalG_canceled (g : Nat) (s : St) :
    (signalG g s).canceled = s.canceled := rfl

@[simp] theorem signalG_instancelized (g : Nat) (s : St) :
    (signalG g s).instancelized = s.instancelized := rfl

@[simp] theorem signalG_builderCalls (g : Nat) (s : St) :
    (signalG g s).builderCalls = s.builderCalls := rfl

@[simp] theorem signalG_wq (g : Nat) (s : St) :
    (signalG g s).wq = s.wq := rfl

@[simp] theorem signalG_jc (g : Nat) (s : St) :
    (signalG g s).jc = s.jc := rfl

@[simp] theorem signalG_trace (g : Nat) (s : St) :
    (signalG g s).trace = s.trace := rfl

@[simp] theorem cancelG_instancelized (g : Nat) (s : St) :
    (cancelG g s).instancelized = s.instancelized := rfl

@[simp] theorem cancelG_builderCalls (g : Nat) (s : St) :
    (cancelG g s).builderCalls = s.builderCalls := rfl

@[simp] theorem cancelG_wq (g : Nat) (s : St) :
    (cancelG g s).wq = s.wq := rfl

@[simp] theorem cancelG_jc (g : Nat) (s : St) :
    (cancelG g s).jc = s.jc := rfl

@[simp] theorem cancelG_trace (g : Nat) (s : St) :
    (cancelG g s).trace = s.trace := rfl

theorem cancelG_canceled_same (g : Nat) (s : St) :
    (cancelG g s).canceled g = true := by simp [cancelG]

/-- innerNode.drop never touches the cancellation flags. -/
theorem drop_canceled (sp : Spec) (i : Nat) (s : St) :
    (innerNode.drop sp i s).canceled = s.canceled := by
  unfold innerNode.drop
  exact foldl_pres _ St.canceled (fun s b => by split <;> rfl) _ _

/-- innerNode.drop never touches the instancelized latches. -/
theorem drop_instancelized (sp : Spec) (i : Nat) (s : St) :
    (innerNode.drop sp i s).instancelized = s.instancelized := by
  unfold innerNode.drop
  exact foldl_pres _ St.instancelized (fun s b => by split <;> rfl) _ _

/-- innerNode.drop never touches the ghost builder-call counters. -/
theorem drop_builderCalls (sp : Spec) (i : Nat) (s : St) :
    (innerNode.drop sp i s).builderCalls = s.builderCalls := by
  unfold innerNode.drop
  exact foldl_pres _ St.builderCalls (fun s b => by split <;> rfl) _ _

/-- innerNode.drop never touches the work queue. -/
theorem drop_wq (sp : Spec) (i : Nat) (s : St) :
    (innerNode.drop sp i s).wq = s.wq := by
  unfold innerNode.drop
  exact foldl_pres _ St.wq (fun s b => by split <;> rfl) _ _

/-- innerNode.drop never touches the ghost traces. -/
theorem drop_trace (sp : Spec) (i : Nat) (s : St) :
    (innerNode.drop sp i s).trace = s.trace := by
  unfold innerNode.drop
  exact foldl_pres _ St.trace (fun s b => by split <;> rfl) _ _

/-- On a condition vertex, innerNode.drop is the identity: the loop body's
guard `n.Typ != nodeCondition` is false on every iteration. -/
theorem drop_cond_id (sp : Spec) (i : Nat) (s : St)
    (hty : (sp.node i).typ = nodeType.nodeCondition) :
    innerNode.drop sp i s = s := by
  unfold innerNode.drop
  exact foldl_id _ (fun s b => by rw [if_neg]; simp [hty]) _ _

/-- sche_successors never touches the cancellation flags. -/
theorem sche_successors_canceled (sp : Spec) (i : Nat) (s : St) :
    (sche_successors sp i s).canceled = s.canceled := by
  unfold sche_successors
  rw [schedule_canceled]
  rfl

/-- sche_successors never touches the instancelized latches. -/
theorem sche_successors_instancelized (sp : Spec) (i : Nat) (s : St) :
    (sche_successors sp i s).instancelized = s.instancelized := by
  unfold sche_successors
  rw [schedule_instancelized]
  rfl

/-- sche_successors never touches the ghost builder-call counters. -/
theorem sche_successors_builderCalls (sp : Spec) (i : Nat) (s : St) :
    (sche_successors sp i s).builderCalls = s.builderCalls := by
  unfold sche_successors
  rw [schedule_builderCalls]
  rfl

/-- scheduleEntries never touches the cancellation flags. -/
theorem scheduleEntries_canceled (sp : Spec) (g : Nat) (s : St) :
    (scheduleEntries sp g s).canceled = s.canceled := by
  unfold scheduleEntries
  rw [schedule_canceled, setup_canceled]

/-- scheduleEntries never touches the instancelized latches. -/
theorem scheduleEntries_instancelized (sp : Spec) (g : Nat) (s : St) :
    (scheduleEntries sp g s).instancelized = s.instancelized := by
  unfold scheduleEntries
  rw [schedule_instancelized, setup_instancelized]

/-- scheduleEntries never touches the ghost builder-call counters. -/
theorem scheduleEntries_builderCalls (sp : Spec) (g : Nat) (s : St) :
    (scheduleEntries sp g s).builderCalls = s.builderCalls := by
  unfold scheduleEntries
  rw [schedule_builderCalls, setup_builderCalls]

/-- C8: when several sibling vertices become ready at one
sche_successors call, they are appended to the work queue sorted ascending
by priority value, and likewise the entry vertices scheduled by
scheduleGraph's entry stage are appended sorted ascending by priority
(assuming the owning graphs are not cancelled, otherwise nothing is
enqueued at all). -/
theorem siblings_enqueued_ascending_priority (sp : Spec) (i g : Nat) (s : St)
    (h1 : ∀ j ∈ sortByPriority sp (readyCandidates sp i s),
      s.canceled ((sp.node j).graph) = false)
    (h2 : ∀ j ∈ sortByPriority sp ((eGraph.setup sp g s).entries g),
      s.canceled ((sp.node j).graph) = false) :
    ((sche_successors sp i s).wq
        = s.wq ++ sortByPriority sp (readyCandidates sp i s) ∧
      List.Sorted (prioLe sp) (sortByPriority sp (readyCandidates sp i s))) ∧
    ((scheduleEntries sp g s).wq
        = s.wq ++ sortByPriority sp ((eGraph.setup sp g s).entries g) ∧
      List.Sorted (prioLe sp) (sortByPriority sp ((eGraph.setup sp g s).entries g))) := by
  refine ⟨⟨?_, sortByPriority_sorted sp _⟩, ⟨?_, sortByPriority_sorted sp _⟩⟩
  · unfold sche_successors
    rw [schedule_wq]
    · rfl
    · intro j hj
      exact h1 j hj
  · unfold scheduleEntries
    rw [schedule_wq]
    · rw [setup_wq]
    · intro j hj
      rw [setup_canceled]
      exact h2 j hj

/-- A diamond fixture for priority ordering: vertex 0 precedes vertices 1
(priority 2) and 2 (priority 1). -/
def prioSpec : Spec :=
  { node := fun i =>
      if i = 0 then ⟨nodeType.nodeStatic, [1, 2], [], 0, 0, false, 0, 0⟩
      else if i = 1 then ⟨nodeType.nodeStatic, [], [0], 2, 0, false, 0, 0⟩
      else ⟨nodeType.nodeStatic, [], [0], 1, 0, false, 0, 0⟩
    graph := fun _ => ⟨[0, 1, 2]⟩ }

/-- Witness for siblings_enqueued_ascending_priority on the diamond
fixture: the ready successors of vertex 0 are enqueued as [2, 1], the
lower priority value first. -/
theorem siblings_enqueued_ascending_priority_witness :
    ((sche_successors prioSpec 0 st0).wq
        = st0.wq ++ sortByPriority prioSpec (readyCandidates prioSpec 0 st0) ∧
      List.Sorted (prioLe prioSpec)
        (sortByPriority prioSpec (readyCandidates prioSpec 0 st0))) ∧
    ((scheduleEntries prioSpec 0 st0).wq
        = st0.wq ++ sortByPriority prioSpec ((eGraph.setup prioSpec 0 st0).entries 0) ∧
      List.Sorted (prioLe prioSpec)
        (sortByPriority prioSpec ((eGraph.setup prioSpec 0 st0).entries 0))) :=
  siblings_enqueued_ascending_priority prioSpec 0 0 st0 (by decide) (by decide)

/-- The dispatcher loop invokeGraph only ever returns at quiescence or
cancellation: its loop exit condition is literally
`g.JoinCounter() == 0 || g.canceled.Load()` (src/executor.go line 61). -/
theorem invokeGraph_quiescent (sp : Spec) (g : Nat) :
    ∀ (fuel : Nat) (s s' : St), invokeGraph fuel sp g s = some s' →
      s'.gjc g = 0 ∨ s'.canceled g = true := by
  intro fuel
  induction fuel with
  | zero => intro s s' h; cases h
  | succ fuel ih =>
    intro s s' h
    unfold invokeGraph at h
    rw [exec] at h
    by_cases hc : s.gjc g = 0 ∨ s.canceled g = true
    · rw [if_pos hc] at h
      cases h
      exact hc
    · rw [if_neg hc] at h
      cases hwq : s.wq with
      | nil => rw [hwq] at h; cases h
      | cons i rest =>
        rw [hwq] at h
        dsimp only at h
        cases hn : exec fuel sp (Call.invNode i) { s with wq := rest } with
        | none => rw [hn] at h; cases h
        | some s2 =>
          rw [hn] at h
          exact ih s2 s' h

/-- C2 amended: Run(tf) calls scheduleGraph synchronously on the caller's
goroutine, and scheduleGraph runs the dispatcher loop invokeGraph inline,
so whenever Run returns a final state, that state already satisfies the
loop's exit condition: the graph's join-counter is zero (the whole run has
completed) or its cancellation flag is latched.  Run therefore blocks the
caller until the run is over rather than returning immediately; Wait()
only additionally drains the executor-wide WaitGroup. -/
theorem run_exits_only_at_quiescence_or_cancel (fuel : Nat) (sp : Spec)
    (g : Nat) (s s' : St) (h : Run fuel sp g s = some s') :
    s'.gjc g = 0 ∨ s'.canceled g = true := by
  cases fuel with
  | zero => cases h
  | succ fuel =>
    unfold Run scheduleGraph at h
    rw [exec] at h
    cases hg : exec fuel sp (Call.invGraph g) (scheduleEntries sp g s) with
    | none => rw [hg] at h; cases h
    | some s2 =>
      rw [hg] at h
      cases h
      rcases invokeGraph_quiescent sp g fuel _ _ hg with h0 | h1
      · exact Or.inl h0
      · exact Or.inr h1

/-- A world whose graph 0 has no vertices at all. -/
def emptySpec : Spec :=
  { node := fun _ => dnode
    graph := fun _ => ⟨[]⟩ }

/-- Witness for run_exits_only_at_quiescence_or_cancel on the empty
graph. -/
theorem run_exits_only_at_quiescence_or_cancel_witness :
    Run 2 emptySpec 0 st0 = some (signalG 0 (scheduleEntries emptySpec 0 st0)) ∧
    ((signalG 0 (scheduleEntries emptySpec 0 st0)).gjc 0 = 0 ∨
     (signalG 0 (scheduleEntries emptySpec 0 st0)).canceled 0 = true) :=
  ⟨rfl, run_exits_only_at_quiescence_or_cancel 2 emptySpec 0 st0 _ rfl⟩

/-- The state Run returns on the one-task fixture. -/
def runOneOut : Option St := Run 20 oneTaskSpec 0 st0

/-- C2 counterexample: on a graph with one static vertex, the state Run
returns already contains the vertex's complete lifecycle — its state-store
history is [Idle, Waiting, Running, Finished, Idle] and the graph
join-counter is back to zero — because Run executes the dispatcher loop
(and, in it, the vertex payloads) before returning (src/executor.go lines
46-49 call scheduleGraph directly, and scheduleGraph line 234 calls
invokeGraph inline).  The claim that Run returns immediately with the work
still to proceed on the pool — a return state where the vertex is at most
enqueued — is false. -/
theorem run_is_not_nonblocking :
    stTrace 0 runOneOut = some [kNodeStateIdle, kNodeStateWaiting,
      kNodeStateRunning, kNodeStateFinished, kNodeStateIdle] ∧
    stGjc 0 runOneOut = some 0 ∧
    ¬(stTrace 0 runOneOut = some [kNodeStateIdle, kNodeStateWaiting]) := by
  decide

@[simp] theorem cancelG_canceled (g : Nat) (s : St) :
    (cancelG g s).canceled = fupd s.canceled g true := rfl

@[simp] theorem node_setup_canceled (sp : Spec) (i : Nat) (s : St) :
    (innerNode.setup sp i s).canceled = s.canceled := rfl

@[simp] theorem node_setup_wq (sp : Spec) (i : Nat) (s : St) :
    (innerNode.setup sp i s).wq = s.wq := rfl

@[simp] theorem node_setup_instancelized (sp : Spec) (i : Nat) (s : St) :
    (innerNode.setup sp i s).instancelized = s.instancelized := rfl

@[simp] theorem node_setup_builderCalls (sp : Spec) (i : Nat) (s : St) :
    (innerNode.setup sp i s).builderCalls = s.builderCalls := rfl

@[simp] theorem node_setup_trace (sp : Spec) (i : Nat) (s : St) :
    (innerNode.setup sp i s).trace
      = fupd s.trace i (s.trace i ++ [kNodeStateIdle]) := rfl

@[simp] theorem node_setup_jc (sp : Spec) (i : Nat) (s : St) (j : Nat)
    (h : j ≠ i) : (innerNode.setup sp i s).jc j = s.jc j := by
  simp [innerNode.setup, storeState, fupd, h]

/-- scheduleGraph on an already-cancelled graph: the entry-scheduling
stage enqueues nothing, the dispatcher loop exits at once, and the final
signal is emitted. -/
theorem exec_schedGraph_canceled (m : Nat) (sp : Spec) (g : Nat) (s : St)
    (h : s.canceled g = true) :
    exec (m + 2) sp (Call.schedGraph g) s
      = some (signalG g (scheduleEntries sp g s)) := by
  have h1 : (scheduleEntries sp g s).canceled g = true := by
    rw [scheduleEntries_canceled]
    exact h
  rw [show m + 2 = Nat.succ (m + 1) from rfl, exec,
    show m + 1 = Nat.succ m from rfl, exec]
  simp [h1]

theorem subflowFinalize_canceled (sp : Spec) (i : Nat) (s : St) :
    (subflowFinalize sp i s).canceled = s.canceled := by
  simp [subflowFinalize, sche_successors_canceled, drop_canceled]

theorem subflowFinalize_instancelized (sp : Spec) (i : Nat) (s : St) :
    (subflowFinalize sp i s).instancelized = s.instancelized := by
  simp [subflowFinalize, sche_successors_instancelized, drop_instancelized]

theorem subflowFinalize_builderCalls (sp : Spec) (i : Nat) (s : St) :
    (subflowFinalize sp i s).builderCalls = s.builderCalls := by
  simp [subflowFinalize, sche_successors_builderCalls, drop_builderCalls]

/-- On a builder panic the subflow body latches the sub-graph's flag. -/
theorem subflowBody_panic_canceled_sub (sp : Spec) (i : Nat) (s : St)
    (hinst : s.instancelized ((sp.node i).subgraph) = false)
    (hp : (sp.node i).panics = true) :
    (subflowBody sp i s).canceled ((sp.node i).subgraph) = true := by
  simp [subflowBody, hinst, hp, cancelG, fupd]

/-- On a builder panic the subflow body latches the owning graph's flag. -/
theorem subflowBody_panic_canceled_graph (sp : Spec) (i : Nat) (s : St)
    (hinst : s.instancelized ((sp.node i).subgraph) = false)
    (hp : (sp.node i).panics = true) :
    (subflowBody sp i s).canceled ((sp.node i).graph) = true := by
  simp [subflowBody, hinst, hp, cancelG, fupd]

/-- On a builder panic the instancelized latch is left untouched. -/
theorem subflowBody_panic_instancelized (sp : Spec) (i : Nat) (s : St)
    (hinst : s.instancelized ((sp.node i).subgraph) = false)
    (hp : (sp.node i).panics = true) :
    (subflowBody sp i s).instancelized = s.instancelized := by
  simp [subflowBody, hinst, hp]

/-- On a builder panic the builder still ran once. -/
theorem subflowBody_panic_builderCalls (sp : Spec) (i : Nat) (s : St)
    (hinst : s.instancelized ((sp.node i).subgraph) = false)
    (hp : (sp.node i).panics = true) :
    (subflowBody sp i s).builderCalls
      = fupd s.builderCalls i (s.builderCalls i + 1) := by
  simp [subflowBody, hinst, hp]

/-- A panicking subflow builder: the run of the subflow vertex terminates
(the sub-graph's dispatcher loop exits immediately on the latched flag),
both cancellation flags are latched, the instancelized latch stays false,
and the builder ran exactly once more. -/
theorem invokeSubflow_panic_proj (m : Nat) (sp : Spec) (i : Nat) (s : St)
    (hinst : s.instancelized ((sp.node i).subgraph) = false)
    (hp : (sp.node i).panics = true) :
    stCanceled ((sp.node i).graph) (invokeSubflow (m + 3) sp i s) = some true ∧
    stCanceled ((sp.node i).subgraph) (invokeSubflow (m + 3) sp i s) = some true ∧
    stInstancelized ((sp.node i).subgraph) (invokeSubflow (m + 3) sp i s) = some false ∧
    stBuilderCalls i (invokeSubflow (m + 3) sp i s) = some (s.builderCalls i + 1) := by
  unfold invokeSubflow
  rw [show m + 3 = Nat.succ (m + 2) from rfl, exec,
    exec_schedGraph_canceled m sp _ _ (subflowBody_panic_canceled_sub sp i s hinst hp)]
  refine ⟨?_, ?_, ?_, ?_⟩
  · simp [stCanceled, subflowFinalize_canceled, scheduleEntries_canceled,
      subflowBody_panic_canceled_graph sp i s hinst hp]
  · simp [stCanceled, subflowFinalize_canceled, scheduleEntries_canceled,
      subflowBody_panic_canceled_sub sp i s hinst hp]
  · simp [stInstancelized, subflowFinalize_instancelized,
      scheduleEntries_instancelized, subflowBody_panic_instancelized sp i s hinst hp,
      hinst]
  · simp [stBuilderCalls, subflowFinalize_builderCalls,
      scheduleEntries_builderCalls, subflowBody_panic_builderCalls sp i s hinst hp]

/-- The full cancellation effect of invokeStatic: on panic exactly the
owning graph's flag is latched; otherwise no flag changes. -/
theorem invokeStatic_canceled (sp : Spec) (i : Nat) (s : St) :
    (invokeStatic sp i s).canceled
      = if (sp.node i).panics then fupd s.canceled ((sp.node i).graph) true
        else s.canceled := by
  unfold invokeStatic
  by_cases hp : (sp.node i).panics = true
  · simp [hp, sche_successors_canceled, drop_canceled]
  · simp [Bool.not_eq_true] at hp
    simp [hp, sche_successors_canceled, drop_canceled]

theorem invokeStatic_instancelized (sp : Spec) (i : Nat) (s : St) :
    (invokeStatic sp i s).instancelized = s.instancelized := by
  unfold invokeStatic
  by_cases hp : (sp.node i).panics = true <;>
    simp [hp, sche_successors_instancelized, drop_instancelized]

/-- A panicking condition payload latches exactly the owning graph's
flag. -/
theorem invokeCondition_canceled_panic (sp : Spec) (i : Nat) (s : St)
    (hp : (sp.node i).panics = true) :
    (invokeCondition sp i s).canceled
      = fupd s.canceled ((sp.node i).graph) true := by
  unfold invokeCondition
  simp [hp, drop_canceled, node_setup_canceled]

theorem invokeCondition_instancelized (sp : Spec) (i : Nat) (s : St) :
    (invokeCondition sp i s).instancelized = s.instancelized := by
  unfold invokeCondition
  by_cases hp : (sp.node i).panics = true
  · simp [hp, drop_instancelized, node_setup_instancelized]
  · by_cases hg : (sp.node i).choice > (sp.node i).successors.length
    · simp [hp, hg, drop_instancelized, node_setup_instancelized]
    · cases ht : (sp.node i).successors[(sp.node i).choice]? with
      | none => simp [hp, hg, ht, drop_instancelized, node_setup_instancelized]
      | some t => simp [hp, hg, ht, drop_instancelized, node_setup_instancelized,
          schedule_instancelized]

/-- The subflow body never unsets an instancelized latch. -/
theorem subflowBody_instancelized_mono (sp : Spec) (i : Nat) (s : St)
    (sub : Nat) (hs : s.instancelized sub = true) :
    (subflowBody sp i s).instancelized sub = true := by
  by_cases hb : s.instancelized ((sp.node i).subgraph) = true
  · simp [subflowBody, hb, fupd, hs]
  · simp only [Bool.not_eq_true] at hb
    by_cases hpan : (sp.node i).panics = true
    · simp [subflowBody, hb, hpan, hs]
    · simp [Bool.not_eq_true] at hpan
      simp [subflowBody, hb, hpan, fupd, hs]

/-- When the builder does not panic, the subflow body always leaves the
sub-graph's instancelized latch set. -/
theorem subflowBody_nopanic_instancelized (sp : Spec) (i : Nat) (s : St)
    (hp : (sp.node i).panics = false) :
    (subflowBody sp i s).instancelized ((sp.node i).subgraph) = true := by
  by_cases hb : s.instancelized ((sp.node i).subgraph) = true
  · simp [subflowBody, hb, hp, fupd]
  · simp only [Bool.not_eq_true] at hb
    simp [subflowBody, hb, hp, fupd]

/-- Nothing in the executor ever stores false into an instancelized
latch: once a sub-graph is instancelized it stays so for the rest of the
execution. -/
theorem exec_instancelized_mono (sub : Nat) :
    ∀ (fuel : Nat) (sp : Spec) (c : Call) (s s' : St),
      exec fuel sp c s = some s' → s.instancelized sub = true →
        s'.instancelized sub = true := by
  intro fuel
  induction fuel with
  | zero => intro sp c s s' h _; cases h
  | succ fuel ih =>
    intro sp c s s' h hs
    cases c with
    | invGraph g =>
      rw [exec] at h
      by_cases hc : s.gjc g = 0 ∨ s.canceled g = true
      · rw [if_pos hc] at h; cases h; exact hs
      · rw [if_neg hc] at h
        cases hwq : s.wq with
        | nil => rw [hwq] at h; cases h
        | cons i rest =>
          rw [hwq] at h
          dsimp only at h
          cases hn : exec fuel sp (Call.invNode i) { s with wq := rest } with
          | none => rw [hn] at h; cases h
          | some s2 =>
            rw [hn] at h
            exact ih sp _ s2 s' h (ih sp _ _ s2 hn hs)
    | invNode i =>
      rw [exec] at h
      cases hty : (sp.node i).typ with
      | nodeStatic =>
        rw [hty] at h
        cases h
        rw [invokeStatic_instancelized]
        exact hs
      | nodeCondition =>
        rw [hty] at h
        cases h
        rw [invokeCondition_instancelized]
        exact hs
      | nodeSubflow =>
        rw [hty] at h
        exact ih sp _ s s' h hs
    | invSubflow i =>
      rw [exec] at h
      cases hm : exec fuel sp (Call.schedGraph (sp.node i).subgraph)
          (subflowBody sp i s) with
      | none => rw [hm] at h; cases h
      | some s2 =>
        rw [hm] at h
        cases h
        rw [subflowFinalize_instancelized]
        exact ih sp _ _ s2 hm (subflowBody_instancelized_mono sp i s sub hs)
    | schedGraph g =>
      rw [exec] at h
      cases hm : exec fuel sp (Call.invGraph g) (scheduleEntries sp g s) with
      | none => rw [hm] at h; cases h
      | some s2 =>
        rw [hm] at h
        cases h
        rw [signalG_instancelized]
        refine ih sp _ _ s2 hm ?_
        rw [scheduleEntries_instancelized]
        exact hs

/-- If the builder does not panic, every terminating execution of the
subflow vertex ends with the sub-graph's instancelized latch set. -/
theorem invokeSubflow_nopanic_latch (fuel : Nat) (sp : Spec) (i : Nat)
    (s s' : St) (hp : (sp.node i).panics = false)
    (h : invokeSubflow fuel sp i s = some s') :
    s'.instancelized ((sp.node i).subgraph) = true := by
  cases fuel with
  | zero => cases h
  | succ fuel =>
    unfold invokeSubflow at h
    rw [exec] at h
    cases hm : exec fuel sp (Call.schedGraph (sp.node i).subgraph)
        (subflowBody sp i s) with
    | none => rw [hm] at h; cases h
    | some s2 =>
      rw [hm] at h
      cases h
      rw [subflowFinalize_instancelized]
      exact exec_instancelized_mono _ fuel sp _ _ s2 hm
        (subflowBody_nopanic_instancelized sp i s hp)

/-- Membership is preserved by the priority sort. -/
theorem mem_sortByPriority (sp : Spec) (l : List Nat) (j : Nat) :
    j ∈ sortByPriority sp l ↔ j ∈ l :=
  (List.perm_insertionSort _ l).mem_iff

/-- sche_successors re-runs the finished node's setup, so the node's own
trace gains exactly one Idle store (its successors, not itself, may be
stored Waiting by the schedule call). -/
theorem sche_successors_trace_self (sp : Spec) (i : Nat) (x : St)
    (hs : i ∉ (sp.node i).successors) :
    (sche_successors sp i x).trace i = x.trace i ++ [kNodeStateIdle] := by
  have hnm : i ∉ sortByPriority sp (readyCandidates sp i x) := by
    intro hmem
    exact hs (List.mem_filter.mp ((mem_sortByPriority sp _ i).mp hmem)).1
  unfold sche_successors
  rw [schedule_trace_notMem sp _ _ i hnm]
  simp [fupd]

/-- C7 amended: within one run a static vertex's state stores are Waiting
(at schedule), then Running, then — only on success — Finished; the
constant kNodeStateFailed is never stored (a panicking vertex skips only
the Finished store); and in both outcomes the completion bookkeeping
(sche_successors calling node.setup) immediately stores Idle again, a
deliberate backward transition that readies the vertex for re-entry on
condition loops. -/
theorem static_vertex_state_stores (sp : Spec) (i : Nat) (s : St)
    (hs : i ∉ (sp.node i).successors) :
    ((sp.node i).panics = false →
      (invokeStatic sp i s).trace i
        = s.trace i ++ [kNodeStateRunning, kNodeStateFinished, kNodeStateIdle]) ∧
    ((sp.node i).panics = true →
      (invokeStatic sp i s).trace i
        = s.trace i ++ [kNodeStateRunning, kNodeStateIdle]) ∧
    (s.canceled ((sp.node i).graph) = false →
      (schedule sp [i] s).trace i = s.trace i ++ [kNodeStateWaiting]) := by
  refine ⟨?_, ?_, ?_⟩
  · intro hp
    unfold invokeStatic
    simp only [hp, Bool.false_eq_true, if_false, signalG_trace]
    rw [sche_successors_trace_self sp i _ hs, drop_trace]
    simp [storeState, fupd]
  · intro hp
    unfold invokeStatic
    simp only [hp, if_true, signalG_trace]
    rw [sche_successors_trace_self sp i _ hs, drop_trace, cancelG_trace]
    simp [storeState, fupd]
  · intro hc
    simp [schedule, hc, storeState, signalG, fupd]

/-- Witness for static_vertex_state_stores: the panicking fixture ends
with stores [Running, Idle], the non-panicking one with
[Running, Finished, Idle], and schedule stores Waiting. -/
theorem static_vertex_state_stores_witness :
    (invokeStatic panicSpec 0 st0).trace 0
      = st0.trace 0 ++ [kNodeStateRunning, kNodeStateIdle] ∧
    (invokeStatic oneTaskSpec 0 st0).trace 0
      = st0.trace 0 ++ [kNodeStateRunning, kNodeStateFinished, kNodeStateIdle] ∧
    (schedule panicSpec [0] st0).trace 0 = st0.trace 0 ++ [kNodeStateWaiting] :=
  ⟨(static_vertex_state_stores panicSpec 0 st0 (by decide)).2.1 rfl,
   (static_vertex_state_stores oneTaskSpec 0 st0 (by decide)).1 rfl,
   (static_vertex_state_stores panicSpec 0 st0 (by decide)).2.2 rfl⟩

/-- C6: when a condition vertex's payload returns an in-range k, the
completion schedules exactly the k-th successor (the work queue gains
exactly that one node), no join-counter other than the condition's own
(reset by its re-setup) changes, and the condition's drop is the identity. -/
theorem condition_schedules_only_choice (sp : Spec) (i t : Nat) (s : St)
    (hty : (sp.node i).typ = nodeType.nodeCondition)
    (hp : (sp.node i).panics = false)
    (ht : (sp.node i).successors[(sp.node i).choice]? = some t)
    (hc : s.canceled ((sp.node t).graph) = false) :
    (invokeCondition sp i s).wq = s.wq ++ [t] ∧
    (∀ j, j ≠ i → (invokeCondition sp i s).jc j = s.jc j) ∧
    innerNode.drop sp i s = s := by
  have hlt : (sp.node i).choice < (sp.node i).successors.length :=
    (List.getElem?_eq_some.mp ht).1
  have hg : ¬((sp.node i).choice > (sp.node i).successors.length) := by omega
  refine ⟨?_, ?_, drop_cond_id sp i s hty⟩
  · unfold invokeCondition
    simp only [hp, Bool.false_eq_true, if_false, hg, ht, signalG_wq, node_setup_wq]
    rw [drop_wq]
    rw [schedule_wq]
    · simp [storeState]
    · intro j hj
      simp only [List.mem_singleton] at hj
      subst hj
      simpa [storeState] using hc
  · intro j hj
    unfold invokeCondition
    simp only [hp, Bool.false_eq_true, if_false, hg, ht, signalG_jc]
    rw [node_setup_jc sp i _ j hj, drop_cond_id sp i _ hty, schedule_jc]
    simp [storeState]

/-- A condition vertex 0 with successors [1, 2] whose payload returns 1,
selecting the successor with id 2. -/
def condPickSpec : Spec :=
  { node := fun i =>
      if i = 0 then ⟨nodeType.nodeCondition, [1, 2], [], 0, 0, false, 1, 0⟩
      else dnode
    graph := fun _ => ⟨[0, 1, 2]⟩ }

/-- Witness for condition_schedules_only_choice: choice 1 schedules
exactly node 2. -/
theorem condition_schedules_only_choice_witness :
    (condPickSpec.node 0).typ = nodeType.nodeCondition ∧
    (condPickSpec.node 0).panics = false ∧
    (condPickSpec.node 0).successors[(condPickSpec.node 0).choice]? = some 2 ∧
    st0.canceled ((condPickSpec.node 2).graph) = false ∧
    (invokeCondition condPickSpec 0 st0).wq = st0.wq ++ [2] ∧
    (invokeCondition condPickSpec 0 st0).jc 5 = st0.jc 5 ∧
    innerNode.drop condPickSpec 0 st0 = st0 :=
  ⟨rfl, rfl, rfl, rfl,
   (condition_schedules_only_choice condPickSpec 0 2 st0 rfl rfl rfl rfl).1,
   (condition_schedules_only_choice condPickSpec 0 2 st0 rfl rfl rfl rfl).2.1
     5 (by decide),
   (condition_schedules_only_choice condPickSpec 0 2 st0 rfl rfl rfl rfl).2.2⟩

/-- C4 amended: a panicking static payload latches the owning graph's
cancellation flag and no other graph's flag; likewise a panicking
condition payload; a panic in a subflow's builder latches both the
owning (parent) graph's flag and the sub-graph's flag.  (A panic in a
vertex executed inside a sub-graph latches only the sub-graph's flag —
the vertex's own owning graph — as the concrete counterexample shows;
nothing copies it upward to the parent.) -/
theorem panic_latches_owning_graph :
    (∀ (sp : Spec) (i : Nat) (s : St), (sp.node i).panics = true →
      (invokeStatic sp i s).canceled ((sp.node i).graph) = true ∧
      ∀ g', g' ≠ (sp.node i).graph →
        (invokeStatic sp i s).canceled g' = s.canceled g') ∧
    (∀ (sp : Spec) (i : Nat) (s : St), (sp.node i).panics = true →
      (invokeCondition sp i s).canceled ((sp.node i).graph) = true ∧
      ∀ g', g' ≠ (sp.node i).graph →
        (invokeCondition sp i s).canceled g' = s.canceled g') ∧
    (∀ (m : Nat) (sp : Spec) (i : Nat) (s : St),
      s.instancelized ((sp.node i).subgraph) = false →
      (sp.node i).panics = true →
      stCanceled ((sp.node i).graph) (invokeSubflow (m + 3) sp i s) = some true ∧
      stCanceled ((sp.node i).subgraph) (invokeSubflow (m + 3) sp i s) = some true) := by
  refine ⟨?_, ?_, ?_⟩
  · intro sp i s hp
    rw [invokeStatic_canceled]
    refine ⟨by simp [hp], ?_⟩
    intro g' hne
    simp [hp, fupd_other _ _ hne]
  · intro sp i s hp
    rw [invokeCondition_canceled_panic sp i s hp]
    exact ⟨fupd_same _ _ _, fun g' hne => fupd_other _ _ hne⟩
  · intro m sp i s hinst hp
    obtain ⟨h1, h2, _, _⟩ := invokeSubflow_panic_proj m sp i s hinst hp
    exact ⟨h1, h2⟩

/-- A subflow vertex 0 (graph 0) whose builder itself panics; its
sub-graph 1 holds the non-panicking static vertex 1. -/
def builderPanicSpec : Spec :=
  { node := fun i =>
      if i = 0 then ⟨nodeType.nodeSubflow, [], [], 0, 0, true, 0, 1⟩
      else ⟨nodeType.nodeStatic, [], [], 0, 1, false, 0, 0⟩
    graph := fun g => if g = 0 then ⟨[0]⟩ else ⟨[1]⟩ }

/-- Witness for panic_latches_owning_graph: the static-panic fixture
latches graph 0 and leaves graph 7 alone; the builder-panic fixture
latches both graph 0 and sub-graph 1. -/
theorem panic_latches_owning_graph_witness :
    (panicSpec.node 0).panics = true ∧
    (invokeStatic panicSpec 0 st0).canceled ((panicSpec.node 0).graph) = true ∧
    (invokeStatic panicSpec 0 st0).canceled 7 = st0.canceled 7 ∧
    st0.instancelized ((builderPanicSpec.node 0).subgraph) = false ∧
    (builderPanicSpec.node 0).panics = true ∧
    stCanceled ((builderPanicSpec.node 0).graph)
      (invokeSubflow (0 + 3) builderPanicSpec 0 st0) = some true ∧
    stCanceled ((builderPanicSpec.node 0).subgraph)
      (invokeSubflow (0 + 3) builderPanicSpec 0 st0) = some true :=
  ⟨rfl,
   (panic_latches_owning_graph.1 panicSpec 0 st0 rfl).1,
   (panic_latches_owning_graph.1 panicSpec 0 st0 rfl).2 7 (by decide),
   rfl, rfl,
   (panic_latches_owning_graph.2.2 0 builderPanicSpec 0 st0 rfl rfl).1,
   (panic_latches_owning_graph.2.2 0 builderPanicSpec 0 st0 rfl rfl).2⟩

/-- The state Run returns on the subflow fixture whose sub-graph vertex
panics. -/
def subPanicOut : Option St := Run 20 subPanicSpec 0 st0

/-- C4 counterexample: in the subPanicSpec fixture the static vertex
inside sub-graph 1 panics; after the full run the sub-graph's flag is
latched but the parent graph 0's flag is still false — the recover in
invokeStatic (src/executor.go line 98) stores only into node.g, the
vertex's owning graph, and nothing propagates a sub-graph vertex's panic
to the parent (only invokeSubflow's recover, which fires solely for
panics in the builder running on the subflow worker, touches both
graphs).  The claim that any vertex panic inside a sub-graph additionally
latches the parent graph's flag is therefore false. -/
theorem subgraph_vertex_panic_spares_parent :
    stCanceled 1 subPanicOut = some true ∧
    stCanceled 0 subPanicOut = some false ∧
    ¬(stCanceled 0 subPanicOut = some true) := by decide

/-- C10: a subflow builder panic leaves the sub-graph's instancelized
latch false while the builder ran once; a subsequent execution of the same
subflow vertex therefore runs the builder again (two runs, two builder
calls); and when the builder completes without panicking, every
terminating execution of the subflow vertex ends with the latch set. -/
theorem subflow_latch_only_after_clean_builder :
    (∀ (m : Nat) (sp : Spec) (i : Nat) (s : St),
      s.instancelized ((sp.node i).subgraph) = false →
      (sp.node i).panics = true →
      stInstancelized ((sp.node i).subgraph) (invokeSubflow (m + 3) sp i s)
        = some false ∧
      stBuilderCalls i (invokeSubflow (m + 3) sp i s)
        = some (s.builderCalls i + 1)) ∧
    (∀ (m m2 : Nat) (sp : Spec) (i : Nat) (s s1 : St),
      s.instancelized ((sp.node i).subgraph) = false →
      (sp.node i).panics = true →
      invokeSubflow (m + 3) sp i s = some s1 →
      stBuilderCalls i (invokeSubflow (m2 + 3) sp i s1)
        = some (s.builderCalls i + 2)) ∧
    (∀ (fuel : Nat) (sp : Spec) (i : Nat) (s s' : St),
      (sp.node i).panics = false →
      invokeSubflow fuel sp i s = some s' →
      s'.instancelized ((sp.node i).subgraph) = true) := by
  refine ⟨?_, ?_, ?_⟩
  · intro m sp i s hinst hp
    obtain ⟨_, _, h3, h4⟩ := invokeSubflow_panic_proj m sp i s hinst hp
    exact ⟨h3, h4⟩
  · intro m m2 sp i s s1 hinst hp h1
    obtain ⟨_, _, h3, h4⟩ := invokeSubflow_panic_proj m sp i s hinst hp
    rw [h1] at h3 h4
    simp only [stInstancelized] at h3
    simp only [stBuilderCalls] at h4
    simp only [Option.map] at h3 h4
    obtain ⟨_, _, _, h5⟩ :=
      invokeSubflow_panic_proj m2 sp i s1 (Option.some.inj h3) hp
    rw [h5, Option.some.inj h4]
  · intro fuel sp i s s' hp h
    exact invokeSubflow_nopanic_latch fuel sp i s s' hp h

/-- Witness for subflow_latch_only_after_clean_builder: one panicking
builder run on the fixture leaves the latch false with one builder call,
a second run makes it two calls, and the non-panicking subflow fixture
ends with the latch set. -/
theorem subflow_latch_only_after_clean_builder_witness :
    st0.instancelized ((builderPanicSpec.node 0).subgraph) = false ∧
    (builderPanicSpec.node 0).panics = true ∧
    stInstancelized ((builderPanicSpec.node 0).subgraph)
      (invokeSubflow (0 + 3) builderPanicSpec 0 st0) = some false ∧
    stBuilderCalls 0 (invokeSubflow (0 + 3) builderPanicSpec 0 st0)
      = some (st0.builderCalls 0 + 1) ∧
    invokeSubflow (0 + 3) builderPanicSpec 0 st0
      = some ((invokeSubflow (0 + 3) builderPanicSpec 0 st0).getD st0) ∧
    stBuilderCalls 0 (invokeSubflow (0 + 3) builderPanicSpec 0
        ((invokeSubflow (0 + 3) builderPanicSpec 0 st0).getD st0))
      = some (st0.builderCalls 0 + 2) ∧
    (subPanicSpec.node 0).panics = false ∧
    invokeSubflow 20 subPanicSpec 0 st0
      = some ((invokeSubflow 20 subPanicSpec 0 st0).getD st0) ∧
    ((invokeSubflow 20 subPanicSpec 0 st0).getD st0).instancelized
      ((subPanicSpec.node 0).subgraph) = true :=
  ⟨rfl, rfl,
   (subflow_latch_only_after_clean_builder.1 0 builderPanicSpec 0 st0 rfl rfl).1,
   (subflow_latch_only_after_clean_builder.1 0 builderPanicSpec 0 st0 rfl rfl).2,
   rfl,
   subflow_latch_only_after_clean_builder.2.1 0 0 builderPanicSpec 0 st0
     ((invokeSubflow (0 + 3) builderPanicSpec 0 st0).getD st0) rfl rfl rfl,
   rfl, rfl,
   subflow_latch_only_after_clean_builder.2.2 20 subPanicSpec 0 st0
     ((invokeSubflow 20 subPanicSpec 0 st0).getD st0) rfl rfl⟩

end gotaskflow
